import Mathlib

/-!
Verification development for the cluster-coordination core
(`pkg/cluster/cluster.go`): a shallow embedding of the resource-lifecycle
functions (`getSession`, `initLease`, `getLease`, `getServer`, the server
error monitor), the loops (`heartbeat`, `defrag`), the join protocol
(`addSelfToCluster`), the administrative operations (`PurgeMember`,
`Close`) and the lease-id hex encoding (`fmt.Sprintf` with the x verb)
and parsing (`strTolease` via `strconv.ParseInt` base 16, bit size 64).

Strings are embedded as `List Char`; machine `int64` values as `Int`
with explicit two-power bounds; `nil`-able Go pointers as `Option`;
store RPCs as explicit success/failure inputs; side effects as event
traces.
-/

namespace Cluster

/-- Lowercase hex digit character, as produced by the Go x format verb:
code point 48 + d for a decimal digit, 87 + d for the letters a-f. -/
def hexDigitChar (d : Nat) : Char :=
  if d < 10 then Char.ofNat (48 + d)
  else if d < 16 then Char.ofNat (87 + d)
  else '0'

/-- Value of a hex digit character as accepted by strconv.ParseInt with
base 16: decimal digits (code points 48-57), lowercase letters a-f
(97-102) and uppercase letters A-F (65-70). -/
def hexDigitVal (c : Char) : Option Nat :=
  let n := c.toNat
  if 48 ≤ n ∧ n ≤ 57 then some (n - 48)
  else if 97 ≤ n ∧ n ≤ 102 then some (n - 87)
  else if 65 ≤ n ∧ n ≤ 70 then some (n - 55)
  else none

/-- Most-significant-digit-first hex rendering of a natural number;
`fuel` bounds the recursion depth (any `fuel ≥ n` is enough). -/
def toHexCore : Nat → Nat → List Char
  | 0, _ => []
  | fuel + 1, n =>
    if n = 0 then [] else toHexCore fuel (n / 16) ++ [hexDigitChar (n % 16)]

/-- Hex rendering of a natural number, `0` rendered as "0". -/
def natToHex (n : Nat) : List Char :=
  if n = 0 then ['0'] else toHexCore n n

/-- The Go x format verb on a signed integer: minus sign followed by the
hex rendering of the absolute value when negative. -/
def intToHex (i : Int) : List Char :=
  if i < 0 then '-' :: natToHex i.natAbs else natToHex i.toNat

/-- Left-to-right accumulation of hex digits, failing on a non-digit. -/
def parseDigits : Nat → List Char → Option Nat
  | acc, [] => some acc
  | acc, c :: cs =>
    match hexDigitVal c with
    | some d => parseDigits (16 * acc + d) cs
    | none => none

/-- Parse a non-empty all-hex-digit string to a natural number. -/
def parseHexNat (cs : List Char) : Option Nat :=
  match cs with
  | [] => none
  | _ :: _ => parseDigits 0 cs

/-- Largest value of a signed 64-bit integer. -/
def int64Max : Int := 2 ^ 63 - 1

/-- Magnitude bound for the negative range of a signed 64-bit integer. -/
def int64Lim : Int := 2 ^ 63

/-- strconv.ParseInt with base 16 and bit size 64: optional sign, hex
digits, range check against the signed 64-bit bounds. -/
def parseInt16 (cs : List Char) : Option Int :=
  if cs.head? = some '-' then
    (parseHexNat cs.tail).bind
      (fun v => if (v : Int) ≤ int64Lim then some (-(v : Int)) else none)
  else if cs.head? = some '+' then
    (parseHexNat cs.tail).bind
      (fun v => if (v : Int) ≤ int64Max then some ((v : Int)) else none)
  else
    (parseHexNat cs).bind
      (fun v => if (v : Int) ≤ int64Max then some ((v : Int)) else none)

/-- strTolease: parse a persisted lease string as a base-16 signed
64-bit integer (cluster.go lines 72-78). -/
def strTolease (cs : List Char) : Option Int := parseInt16 cs

theorem hexDigitVal_hexDigitChar (d : Nat) (h : d < 16) :
    hexDigitVal (hexDigitChar d) = some d := by
  interval_cases d <;> decide

theorem parseDigits_append (xs ys : List Char) :
    ∀ acc, parseDigits acc (xs ++ ys)
      = (parseDigits acc xs).bind (fun a => parseDigits a ys) := by
  induction xs with
  | nil => intro acc; simp [parseDigits]
  | cons c cs ih =>
    intro acc
    simp only [List.cons_append, parseDigits]
    cases hv : hexDigitVal c with
    | none => simp
    | some d => simpa using ih (16 * acc + d)

theorem toHexCore_zero (fuel : Nat) : toHexCore fuel 0 = [] := by
  cases fuel <;> simp [toHexCore]

theorem parseDigits_toHexCore :
    ∀ fuel n, n ≤ fuel → n ≠ 0 → ∀ acc,
      parseDigits acc (toHexCore fuel n)
        = some (acc * 16 ^ (toHexCore fuel n).length + n) := by
  intro fuel
  induction fuel with
  | zero => intro n hle hne; omega
  | succ fuel ih =>
    intro n hle hne acc
    have hrec : toHexCore (fuel + 1) n
        = toHexCore fuel (n / 16) ++ [hexDigitChar (n % 16)] := by
      simp [toHexCore, hne]
    by_cases hdiv : n / 16 = 0
    · have hlt : n < 16 := by omega
      have hmod : n % 16 = n := Nat.mod_eq_of_lt hlt
      rw [hrec, hdiv, toHexCore_zero]
      simp only [List.nil_append, parseDigits,
        hexDigitVal_hexDigitChar (n % 16) (Nat.mod_lt n (by omega)),
        List.length_cons, List.length_nil]
      rw [hmod]
      congr 1
      simp [pow_one]
      omega
    · have hltn : n / 16 < n := Nat.div_lt_self (by omega) (by omega)
      have hle' : n / 16 ≤ fuel := by omega
      rw [hrec, parseDigits_append]
      rw [ih (n / 16) hle' hdiv acc]
      simp only [Option.some_bind, parseDigits,
        hexDigitVal_hexDigitChar (n % 16) (Nat.mod_lt n (by omega)),
        List.length_append, List.length_cons, List.length_nil]
      congr 1
      rw [pow_succ, ← mul_assoc]
      generalize acc * 16 ^ (toHexCore fuel (n / 16)).length = X
      omega

theorem toHexCore_ne_nil (fuel n : Nat) (hn : n ≠ 0) (hf : fuel ≠ 0) :
    toHexCore fuel n ≠ [] := by
  cases fuel with
  | zero => omega
  | succ fuel => simp [toHexCore, hn]

theorem parseHexNat_natToHex (n : Nat) : parseHexNat (natToHex n) = some n := by
  by_cases hn : n = 0
  · subst hn; decide
  · rw [natToHex, if_neg hn]
    have hparse := parseDigits_toHexCore n n (le_refl n) hn 0
    rcases hcs : toHexCore n n with _ | ⟨c, cs⟩
    · exact absurd hcs (toHexCore_ne_nil n n hn hn)
    · rw [hcs] at hparse
      simpa [parseHexNat] using hparse

theorem mem_toHexCore_isHex :
    ∀ fuel n c, c ∈ toHexCore fuel n → (hexDigitVal c).isSome := by
  intro fuel
  induction fuel with
  | zero => intro n c h; simp [toHexCore] at h
  | succ fuel ih =>
    intro n c h
    by_cases hn : n = 0
    · simp [toHexCore, hn] at h
    · simp only [toHexCore, if_neg hn, List.mem_append, List.mem_singleton] at h
      rcases h with h | h
      · exact ih (n / 16) c h
      · subst h
        rw [hexDigitVal_hexDigitChar (n % 16) (Nat.mod_lt n (by omega))]
        rfl

theorem mem_natToHex_isHex (n : Nat) (c : Char) (h : c ∈ natToHex n) :
    (hexDigitVal c).isSome := by
  by_cases hn : n = 0
  · simp [natToHex, hn] at h
    subst h; decide
  · rw [natToHex, if_neg hn] at h
    exact mem_toHexCore_isHex n n c h

/-- Round trip: parsing the hex rendering of any signed 64-bit value
recovers that value. -/
theorem strTolease_intToHex (i : Int) (h1 : -int64Lim ≤ i) (h2 : i ≤ int64Max) :
    strTolease (intToHex i) = some i := by
  by_cases hneg : i < 0
  · have hrend : intToHex i = '-' :: natToHex i.natAbs := by
      rw [intToHex, if_pos hneg]
    rw [strTolease, hrend, parseInt16]
    rw [if_pos (show ('-' :: natToHex i.natAbs).head? = some '-' from rfl)]
    simp only [List.tail_cons]
    rw [parseHexNat_natToHex]
    have hbound : ((i.natAbs : Int)) ≤ int64Lim := by
      rw [int64Lim]; rw [int64Lim] at h1; omega
    rw [Option.some_bind, if_pos hbound]
    congr 1
    omega
  · have hrend : intToHex i = natToHex i.toNat := by
      rw [intToHex, if_neg hneg]
    rcases hcs : natToHex i.toNat with _ | ⟨c, cs⟩
    · exfalso
      by_cases hz : i.toNat = 0
      · rw [natToHex, if_pos hz] at hcs; simp at hcs
      · exact toHexCore_ne_nil i.toNat i.toNat hz hz
          (by rwa [natToHex, if_neg hz] at hcs)
    · have hhex : (hexDigitVal c).isSome :=
        mem_natToHex_isHex i.toNat c (by rw [hcs]; exact List.mem_cons_self c cs)
      have hcm : c ≠ '-' := by
        intro h; subst h; simp [hexDigitVal] at hhex
      have hcp : c ≠ '+' := by
        intro h; subst h; simp [hexDigitVal] at hhex
      rw [strTolease, hrend, parseInt16, hcs]
      rw [if_neg (by simp [List.head?, hcm]), if_neg (by simp [List.head?, hcp])]
      rw [← hcs, parseHexNat_natToHex]
      have hbound : ((i.toNat : Int)) ≤ int64Max := by
        rw [int64Max]; rw [int64Max] at h2; omega
      rw [Option.some_bind, if_pos hbound]
      congr 1
      omega

/-- State relevant to the lease lifecycle: the in-memory cached lease id,
the content of the persisted per-member lease key, the outcomes the store
gives to the RPCs the code issues (`getOk` for the KV read, `clientOk`
for client construction, `grantOk`/`nextGrant` for Lease.Grant, `putOk`
for PutUnderLease), and a counter of grant RPCs actually issued. -/
structure LeaseState where
  cachedLease : Option Int
  persisted : Option (List Char)
  getOk : Bool
  clientOk : Bool
  grantOk : Bool
  nextGrant : Int
  putOk : Bool
  grantCount : Nat
deriving DecidableEq

/-- Observable steps of `initLease`, in program order. -/
inductive LeaseEvent
  | storeGet
  | leaseGrant
  | cacheWrite (id : Int)
  | putUnderLease (id : Int)
deriving DecidableEq

/-- Result of `initLease` (`ok`, or which step's error was returned). -/
inductive LeaseResult
  | ok
  | errGet
  | errParse
  | errClient
  | errGrant
  | errPersist
deriving DecidableEq

/-- Post-state, result and event trace of one `initLease` run. -/
structure LeaseOut where
  state : LeaseState
  result : LeaseResult
  events : List LeaseEvent
deriving DecidableEq

/-- getLease: return the cached lease id, or `none` standing for the
"lease is not ready" error (cluster.go lines 354-361). -/
def getLease (s : LeaseState) : Option Int := s.cachedLease

/-- initLease (cluster.go lines 363-413): succeed at once if a lease is
cached; else read the persisted per-member lease key; if present, parse
it with `strTolease` and adopt it; if absent, obtain the client, grant a
new lease, cache it, then persist its hex rendering under the lease —
the cache write precedes the persisting write, and a persist failure is
returned as an error with the lease left cached. -/
def initLease (s : LeaseState) : LeaseOut :=
  match getLease s with
  | some _ => ⟨s, .ok, []⟩
  | none =>
    if s.getOk = false then ⟨s, .errGet, [.storeGet]⟩
    else
      match s.persisted with
      | some str =>
        match strTolease str with
        | none => ⟨s, .errParse, [.storeGet]⟩
        | some l =>
          ⟨{ s with cachedLease := some l }, .ok, [.storeGet, .cacheWrite l]⟩
      | none =>
        if s.clientOk = false then ⟨s, .errClient, [.storeGet]⟩
        else if s.grantOk = false then ⟨s, .errGrant, [.storeGet, .leaseGrant]⟩
        else
          let l := s.nextGrant
          let s1 := { s with cachedLease := some l, grantCount := s.grantCount + 1 }
          if s.putOk = false then
            ⟨s1, .errPersist, [.storeGet, .leaseGrant, .cacheWrite l, .putUnderLease l]⟩
          else
            ⟨{ s1 with persisted := some (intToHex l) }, .ok,
              [.storeGet, .leaseGrant, .cacheWrite l, .putUnderLease l]⟩

/-- A process that has no cached lease and no persisted record yet, with
every store RPC succeeding; the store will grant lease id `l`. -/
def freshLeaseState (l : Int) : LeaseState :=
  ⟨none, none, true, true, true, l, true, 0⟩

/-- C6: after initLease persists a granted lease id, clearing the
in-memory cache (process restart) and re-running initLease adopts the
identical lease id from the persisted record and issues no new grant:
the hex rendering used for persistence and the parse used for recovery
are mutually inverse. -/
theorem initLease_recovery_roundtrip (l : Int)
    (h1 : -int64Lim ≤ l) (h2 : l ≤ int64Max) :
    (initLease (freshLeaseState l)).result = .ok ∧
    (initLease (freshLeaseState l)).state.persisted = some (intToHex l) ∧
    (initLease { (initLease (freshLeaseState l)).state with
        cachedLease := none }).result = .ok ∧
    (initLease { (initLease (freshLeaseState l)).state with
        cachedLease := none }).state.cachedLease = some l ∧
    LeaseEvent.leaseGrant ∉ (initLease { (initLease (freshLeaseState l)).state with
        cachedLease := none }).events ∧
    (initLease { (initLease (freshLeaseState l)).state with
        cachedLease := none }).state.grantCount
      = (initLease (freshLeaseState l)).state.grantCount := by
  have hrt := strTolease_intToHex l h1 h2
  simp [initLease, getLease, freshLeaseState, hrt]

/-- Closed instance of the recovery round-trip at lease id 26. -/
theorem initLease_recovery_roundtrip_witness :
    (-int64Lim ≤ (26 : Int) ∧ (26 : Int) ≤ int64Max) ∧
    ((initLease (freshLeaseState 26)).result = .ok ∧
    (initLease (freshLeaseState 26)).state.persisted = some (intToHex 26) ∧
    (initLease { (initLease (freshLeaseState 26)).state with
        cachedLease := none }).result = .ok ∧
    (initLease { (initLease (freshLeaseState 26)).state with
        cachedLease := none }).state.cachedLease = some 26 ∧
    LeaseEvent.leaseGrant ∉ (initLease { (initLease (freshLeaseState 26)).state with
        cachedLease := none }).events ∧
    (initLease { (initLease (freshLeaseState 26)).state with
        cachedLease := none }).state.grantCount
      = (initLease (freshLeaseState 26)).state.grantCount) :=
  ⟨⟨by decide, by decide⟩, initLease_recovery_roundtrip 26 (by decide) (by decide)⟩

/-- C7: every initLease run that grants a new lease caches it strictly
before issuing the persisting write (event index 2 against 3), and if
the persisting write fails the run returns the persist error while the
lease remains cached, so a subsequent getLease succeeds with it. -/
theorem initLease_cache_before_persist (s : LeaseState)
    (hc : s.cachedLease = none) (hg : s.getOk = true) (hp : s.persisted = none)
    (hcl : s.clientOk = true) (hgr : s.grantOk = true) :
    (initLease s).events =
      [.storeGet, .leaseGrant, .cacheWrite s.nextGrant,
        .putUnderLease s.nextGrant] ∧
    (initLease s).events[2]? = some (.cacheWrite s.nextGrant) ∧
    (initLease s).events[3]? = some (.putUnderLease s.nextGrant) ∧
    (s.putOk = false →
      (initLease s).result = .errPersist ∧
      (initLease s).state.cachedLease = some s.nextGrant ∧
      getLease (initLease s).state = some s.nextGrant) := by
  cases hput : s.putOk <;>
    simp [initLease, getLease, hc, hg, hp, hcl, hgr, hput]

/-- Closed instance of the cache-before-persist property, on a state
whose persisting write fails. -/
theorem initLease_cache_before_persist_witness :
    ((⟨none, none, true, true, true, 7, false, 0⟩ :
        LeaseState).cachedLease = none) ∧
    ((initLease ⟨none, none, true, true, true, 7, false, 0⟩).events =
      [.storeGet, .leaseGrant, .cacheWrite 7, .putUnderLease 7] ∧
    (initLease ⟨none, none, true, true, true, 7, false, 0⟩).events[2]?
      = some (.cacheWrite 7) ∧
    (initLease ⟨none, none, true, true, true, 7, false, 0⟩).events[3]?
      = some (.putUnderLease 7) ∧
    ((⟨none, none, true, true, true, 7, false, 0⟩ : LeaseState).putOk = false →
      (initLease ⟨none, none, true, true, true, 7, false, 0⟩).result = .errPersist ∧
      (initLease ⟨none, none, true, true, true, 7, false, 0⟩).state.cachedLease
        = some 7 ∧
      getLease (initLease ⟨none, none, true, true, true, 7, false, 0⟩).state
        = some 7)) :=
  ⟨rfl, initLease_cache_before_persist
    ⟨none, none, true, true, true, 7, false, 0⟩ rfl rfl rfl rfl rfl⟩

/-- Session half of the resource cache: the cached session (sessions are
identified by their construction index), availability of the client and
the lease, whether concurrency.NewSession succeeds, and how many session
constructions have run. -/
structure SessionState where
  session : Option Nat
  clientOk : Bool
  leaseOk : Bool
  newSessionOk : Bool
  constructions : Nat
deriving DecidableEq

/-- Result of a getSession call. -/
inductive SessionResult
  | ok (id : Nat)
  | errClient
  | errLease
  | errNewSession
deriving DecidableEq

/-- getSession (cluster.go lines 415-451): fast-path return of the
cached session; otherwise, after the double-checked re-test of the
cache, obtain client and lease and build a session, returning it. The
source returns the freshly built session without ever assigning
`c.session`, so the cache field is left untouched on the build path;
the model mirrors that. -/
def getSession (s : SessionState) : SessionState × SessionResult :=
  match s.session with
  | some sess => (s, .ok sess)
  | none =>
    if s.clientOk = false then (s, .errClient)
    else if s.leaseOk = false then (s, .errLease)
    else if s.newSessionOk = false then (s, .errNewSession)
    else ({ s with constructions := s.constructions + 1 }, .ok s.constructions)

/-- C1: evaluation of the code at the failing input: starting from a
ready state (client and lease available, construction succeeding, no
intervening closeSession), two successive getSession calls perform two
underlying session constructions and return two distinct sessions, and
the cache field is still empty after the first success — the success
path of the source never stores the constructed session. -/
theorem getSession_constructs_every_call :
    (getSession ⟨none, true, true, true, 0⟩).2 = .ok 0 ∧
    (getSession ⟨none, true, true, true, 0⟩).1.session = none ∧
    (getSession (getSession ⟨none, true, true, true, 0⟩).1).2 = .ok 1 ∧
    (getSession (getSession ⟨none, true, true, true, 0⟩).1).1.constructions
      = 2 := by
  decide

/-- Normal defragmentation interval, in seconds (1h). -/
def defragNormalIntervalSec : Nat := 3600

/-- Failure-backoff defragmentation interval, in seconds (1m). -/
def defragFailedIntervalSec : Nat := 60

/-- The Defragment RPC as invoked on the handle returned by getClient:
`none` models the method call on the nil client pointer (a runtime
panic), `some rpcOk` the RPC outcome on a live client. -/
def defragment (client : Option Unit) (rpcOk : Bool) : Option Bool :=
  match client with
  | none => none
  | some _ => some rpcOk

/-- What one defrag tick does to the loop. -/
inductive DefragStep
  | nextTick (intervalSec : Nat)
  | panicNilClient (intervalSec : Nat)
deriving DecidableEq

/-- One tick of the defrag loop (cluster.go lines 584-609): on a client
acquisition error the interval is set to the failed value but control
falls through — that branch has no continue — to the Defragment call on
the nil client; on a Defragment error the interval is set to the failed
value and the tick ends; on success it is reset to the normal value. -/
def defragTick (intervalSec : Nat) (clientOk rpcOk : Bool) : DefragStep :=
  let client : Option Unit := if clientOk then some () else none
  let interval1 := if clientOk then intervalSec else defragFailedIntervalSec
  match defragment client rpcOk with
  | none => .panicNilClient interval1
  | some false => .nextTick defragFailedIntervalSec
  | some true => .nextTick defragNormalIntervalSec

/-- C2: evaluation of the code at the failing input: in every defrag
tick whose connection acquisition fails, the interval is switched to
the failed value but the tick then performs the defragmentation call on
the absent (nil) client handle and panics, instead of skipping the
request and safely retrying after the failed interval. -/
theorem defragTick_client_failure_panics (intervalSec : Nat) (rpcOk : Bool) :
    defragTick intervalSec false rpcOk
      = .panicNilClient defragFailedIntervalSec := rfl

/-- One resolved select outcome seen by the heartbeat loop. -/
inductive HBInput
  | tick (syncOk updateOk : Bool)
  | shutdown
deriving DecidableEq

/-- Observable actions of the heartbeat loop. -/
inductive HBAction
  | syncAttempt
  | updateAttempt
  | exited
deriving DecidableEq

/-- heartbeat (cluster.go lines 566-582) over a resolved sequence of
select outcomes: each timer tick calls syncStatus and then — whether or
not syncStatus failed, both failures being only logged — updateMembers;
the shutdown signal returns from the loop at once. An exhausted input
list means the loop is still running, so no exit action is recorded. -/
def heartbeatRun : List HBInput → List HBAction
  | [] => []
  | .tick _ _ :: rest => .syncAttempt :: .updateAttempt :: heartbeatRun rest
  | .shutdown :: _ => [.exited]

/-- The actions of `n` heartbeat ticks: one status-publish attempt and
one membership-refresh attempt each, independent of failures. -/
def tickActions : Nat → List HBAction
  | 0 => []
  | n + 1 => .syncAttempt :: .updateAttempt :: tickActions n

/-- C9: in every heartbeat tick both steps run — the membership refresh
is attempted regardless of the status publish failing — no failure
terminates the loop (the actions depend only on the number of ticks,
not on the failure flags), and the loop exits exactly when the shutdown
signal is observed. -/
theorem heartbeat_ticks_best_effort (pre post : List HBInput)
    (h : HBInput.shutdown ∉ pre) :
    heartbeatRun pre = tickActions pre.length ∧
    HBAction.exited ∉ heartbeatRun pre ∧
    heartbeatRun (pre ++ HBInput.shutdown :: post)
      = tickActions pre.length ++ [HBAction.exited] := by
  induction pre with
  | nil => simp [heartbeatRun, tickActions]
  | cons x rest ih =>
    have hx : x ≠ HBInput.shutdown :=
      fun hzz => h (hzz ▸ List.mem_cons_self x rest)
    cases x with
    | shutdown => exact absurd rfl hx
    | tick a b =>
      have hrest : HBInput.shutdown ∉ rest :=
        fun hm => h (List.mem_cons_of_mem _ hm)
      obtain ⟨h1, h2, h3⟩ := ih hrest
      refine ⟨?_, ?_, ?_⟩
      · simp [heartbeatRun, tickActions, h1]
      · simp [heartbeatRun, h2]
      · simp [heartbeatRun, tickActions, h3]

/-- Closed instance: two ticks (one with a failing status publish, one
with a failing membership refresh) followed by shutdown. -/
theorem heartbeat_ticks_best_effort_witness :
    (HBInput.shutdown ∉ [HBInput.tick true false, HBInput.tick false true]) ∧
    (heartbeatRun [HBInput.tick true false, HBInput.tick false true]
      = tickActions ([HBInput.tick true false, HBInput.tick false true]).length ∧
    HBAction.exited ∉ heartbeatRun [HBInput.tick true false,
      HBInput.tick false true] ∧
    heartbeatRun ([HBInput.tick true false, HBInput.tick false true]
        ++ HBInput.shutdown :: [])
      = tickActions ([HBInput.tick true false, HBInput.tick false true]).length
        ++ [HBAction.exited]) :=
  ⟨by decide, heartbeat_ticks_best_effort
    [HBInput.tick true false, HBInput.tick false true] [] (by decide)⟩

/-- Observable store calls issued by PurgeMember. -/
inductive PurgeEvent
  | memberListReq
  | memberRemove (id : Nat)
  | storeGet
  | leaseRevoke (id : Int)
deriving DecidableEq

/-- Result of a PurgeMember call. -/
inductive PurgeResult
  | ok
  | errClient
  | errList
  | errRemove
  | errGet
  | notFound
  | errParse
  | errRevoke
deriving DecidableEq

/-- State visible to PurgeMember: client availability, the store member
list as (name, id) pairs, the persisted per-member lease records keyed
by member name, and the outcomes of the RPCs issued. Member names are
coded as naturals. -/
structure PurgeState where
  clientOk : Bool
  listOk : Bool
  memberList : List (Nat × Nat)
  removeOk : Bool
  getOk : Bool
  leaseRecords : List (Nat × List Char)
  revokeOk : Bool
deriving DecidableEq

/-- The id-selection loop of PurgeMember: every member whose name
matches overwrites the id without breaking, so the last match wins;
`none` when no member carries the name. -/
def findMemberId (name : Nat) (l : List (Nat × Nat)) : Option Nat :=
  l.foldl (fun acc m => if m.1 = name then some m.2 else acc) none

/-- The lease half of PurgeMember: read the per-member lease key, fail
with the not-found error when it is absent, otherwise parse the record
with `strTolease` and revoke the lease. -/
def purgeLease (s : PurgeState) (name : Nat) (evs : List PurgeEvent) :
    PurgeResult × List PurgeEvent :=
  if s.getOk = false then (.errGet, evs ++ [.storeGet])
  else
    match s.leaseRecords.lookup name with
    | none => (.notFound, evs ++ [.storeGet])
    | some str =>
      match strTolease str with
      | none => (.errParse, evs ++ [.storeGet])
      | some l =>
        if s.revokeOk = false then
          (.errRevoke, evs ++ [.storeGet, .leaseRevoke l])
        else (.ok, evs ++ [.storeGet, .leaseRevoke l])

/-- PurgeMember (cluster.go lines 660-704): obtain the client, list the
store members, remove the member carrying the name if the list has one,
and only then read the per-member lease key — absent means the
not-found failure — parse it and revoke the recorded lease. -/
def PurgeMember (s : PurgeState) (name : Nat) :
    PurgeResult × List PurgeEvent :=
  if s.clientOk = false then (.errClient, [])
  else if s.listOk = false then (.errList, [.memberListReq])
  else
    match findMemberId name s.memberList with
    | some i =>
      if s.removeOk = false then
        (.errRemove, [.memberListReq, .memberRemove i])
      else purgeLease s name [.memberListReq, .memberRemove i]
    | none => purgeLease s name [.memberListReq]

/-- C3 (counterexample): purging name 5, which has no persisted lease
record but is present in the store member list with id 1, fails with
the not-found error only after a member-remove was already issued — a
store mutation the claim rules out. -/
theorem PurgeMember_absent_lease_still_removes :
    (PurgeMember ⟨true, true, [(5, 1)], true, true, [], true⟩ 5).1
      = .notFound ∧
    PurgeEvent.memberRemove 1
      ∈ (PurgeMember ⟨true, true, [(5, 1)], true, true, [], true⟩ 5).2 := by
  decide

/-- C3 (amended): for every member name whose per-member lease key is
absent, PurgeMember fails with the not-found error and issues no lease
revocation; no member-remove is issued exactly when the name is also
absent from the store member list — when the list carries the name, the
member-remove is issued before the failure. -/
theorem PurgeMember_absent_lease_not_found (s : PurgeState) (name : Nat)
    (hcl : s.clientOk = true) (hl : s.listOk = true)
    (hr : s.removeOk = true) (hg : s.getOk = true)
    (habs : s.leaseRecords.lookup name = none) :
    (PurgeMember s name).1 = .notFound ∧
    (∀ l : Int, PurgeEvent.leaseRevoke l ∉ (PurgeMember s name).2) ∧
    (findMemberId name s.memberList = none →
      ∀ i : Nat, PurgeEvent.memberRemove i ∉ (PurgeMember s name).2) ∧
    (∀ i : Nat, findMemberId name s.memberList = some i →
      PurgeEvent.memberRemove i ∈ (PurgeMember s name).2) := by
  cases hfind : findMemberId name s.memberList <;>
    simp [PurgeMember, purgeLease, hcl, hl, hr, hg, habs, hfind]

/-- Closed instance of the amended purge-of-unknown-name property, with
the purged name present in the member list. -/
theorem PurgeMember_absent_lease_not_found_witness :
    ((⟨true, true, [(5, 1)], true, true, [], true⟩ :
        PurgeState).leaseRecords.lookup 5 = none) ∧
    ((PurgeMember ⟨true, true, [(5, 1)], true, true, [], true⟩ 5).1
        = .notFound ∧
    (∀ l : Int, PurgeEvent.leaseRevoke l
      ∉ (PurgeMember ⟨true, true, [(5, 1)], true, true, [], true⟩ 5).2) ∧
    (findMemberId 5 (⟨true, true, [(5, 1)], true, true, [], true⟩ :
        PurgeState).memberList = none →
      ∀ i : Nat, PurgeEvent.memberRemove i
        ∉ (PurgeMember ⟨true, true, [(5, 1)], true, true, [], true⟩ 5).2) ∧
    (∀ i : Nat, findMemberId 5 (⟨true, true, [(5, 1)], true, true, [],
        true⟩ : PurgeState).memberList = some i →
      PurgeEvent.memberRemove i
        ∈ (PurgeMember ⟨true, true, [(5, 1)], true, true, [], true⟩ 5).2)) :=
  ⟨rfl, PurgeMember_absent_lease_not_found
    ⟨true, true, [(5, 1)], true, true, [], true⟩ 5 rfl rfl rfl rfl rfl⟩

/-- C8: purging a name that has a persisted lease record but no entry in
the store member list issues no member-remove, still revokes the
recorded lease, and returns success. -/
theorem PurgeMember_lease_without_membership (s : PurgeState) (name : Nat)
    (str : List Char) (l : Int)
    (hcl : s.clientOk = true) (hl : s.listOk = true) (hg : s.getOk = true)
    (hrev : s.revokeOk = true)
    (hnm : findMemberId name s.memberList = none)
    (hrec : s.leaseRecords.lookup name = some str)
    (hparse : strTolease str = some l) :
    (PurgeMember s name).1 = .ok ∧
    (∀ i : Nat, PurgeEvent.memberRemove i ∉ (PurgeMember s name).2) ∧
    PurgeEvent.leaseRevoke l ∈ (PurgeMember s name).2 := by
  simp [PurgeMember, purgeLease, hcl, hl, hg, hrev, hnm, hrec, hparse]

/-- Closed instance of purge without store membership: name 5 has the
persisted record "1a" (lease id 26) and is not in the member list. -/
theorem PurgeMember_lease_without_membership_witness :
    (findMemberId 5 [(9, 3)] = none ∧
      ([(5, ['1', 'a'])] : List (Nat × List Char)).lookup 5
        = some ['1', 'a'] ∧
      strTolease ['1', 'a'] = some 26) ∧
    ((PurgeMember ⟨true, true, [(9, 3)], true, true,
        [(5, ['1', 'a'])], true⟩ 5).1 = .ok ∧
    (∀ i : Nat, PurgeEvent.memberRemove i
      ∉ (PurgeMember ⟨true, true, [(9, 3)], true, true,
          [(5, ['1', 'a'])], true⟩ 5).2) ∧
    PurgeEvent.leaseRevoke 26
      ∈ (PurgeMember ⟨true, true, [(9, 3)], true, true,
          [(5, ['1', 'a'])], true⟩ 5).2) :=
  ⟨⟨by decide, by decide, by decide⟩,
    PurgeMember_lease_without_membership
      ⟨true, true, [(9, 3)], true, true, [(5, ['1', 'a'])], true⟩ 5
      ['1', 'a'] 26 rfl rfl rfl rfl (by decide) (by decide) (by decide)⟩

/-- This node's identity as compared by the join protocol; names are
coded as naturals. -/
structure SelfId where
  name : Nat
  id : Nat
deriving DecidableEq

/-- Outcome of addSelfToCluster: a returned error, a normal return, or
a process abort — the panic calls of the source. -/
inductive JoinOutcome
  | ok
  | errClient
  | errList
  | errAdd
  | panicConflictIds
  | panicConflictNames
deriving DecidableEq

/-- Observable store calls of the join protocol. -/
inductive JoinEvent
  | memberListReq
  | memberAdd
deriving DecidableEq

/-- The member-scan loop of addSelfToCluster (cluster.go lines 256-272):
an exact name-and-id match sets found and breaks; the same name with a
different id aborts ("conflict etcd ids"); the same id with a different
name aborts ("conflict etcd names"); anything else continues. The
`Except` error carries the abort out of the loop. -/
def scanMembers (self : SelfId) : List (Nat × Nat) → Except JoinOutcome Bool
  | [] => .ok false
  | m :: rest =>
    if self.name = m.1 ∧ self.id = m.2 then .ok true
    else if self.name = m.1 ∧ self.id ≠ m.2 then .error .panicConflictIds
    else if self.id = m.2 ∧ self.name ≠ m.1 then .error .panicConflictNames
    else scanMembers self rest

/-- addSelfToCluster (cluster.go lines 243-284): obtain the client, list
the members, scan them against this node's identity, and issue a
member-add only when the scan finished without finding this node. -/
def addSelfToCluster (self : SelfId) (clientOk listOk addOk : Bool)
    (memberList : List (Nat × Nat)) : JoinOutcome × List JoinEvent :=
  if clientOk = false then (.errClient, [])
  else if listOk = false then (.errList, [.memberListReq])
  else
    match scanMembers self memberList with
    | .error p => (p, [.memberListReq])
    | .ok true => (.ok, [.memberListReq])
    | .ok false =>
      if addOk = false then (.errAdd, [.memberListReq, .memberAdd])
      else (.ok, [.memberListReq, .memberAdd])

/-- A member conflicting with this node's identity: same name with a
different id, or same id with a different name. -/
def conflictsWith (self : SelfId) (m : Nat × Nat) : Prop :=
  (self.name = m.1 ∧ self.id ≠ m.2) ∨ (self.id = m.2 ∧ self.name ≠ m.1)

instance (self : SelfId) (m : Nat × Nat) : Decidable (conflictsWith self m) := by
  unfold conflictsWith; infer_instance

/-- C4 (counterexample): with one existing member of the same name 7 and
a different id, addSelfToCluster does not surface a typed error to the
caller — it aborts via panic — though it does issue no member-add. -/
theorem addSelfToCluster_conflict_panics :
    (addSelfToCluster ⟨7, 1⟩ true true true [(7, 2)]).1
      = .panicConflictIds ∧
    (addSelfToCluster ⟨7, 1⟩ true true true [(7, 2)]).1 ≠ .errClient ∧
    (addSelfToCluster ⟨7, 1⟩ true true true [(7, 2)]).1 ≠ .errList ∧
    (addSelfToCluster ⟨7, 1⟩ true true true [(7, 2)]).1 ≠ .errAdd ∧
    (addSelfToCluster ⟨7, 1⟩ true true true [(7, 2)]).1 ≠ .ok ∧
    JoinEvent.memberAdd
      ∉ (addSelfToCluster ⟨7, 1⟩ true true true [(7, 2)]).2 := by
  decide

theorem scanMembers_conflict_not_notfound (self : SelfId) :
    ∀ list : List (Nat × Nat), (∃ m ∈ list, conflictsWith self m) →
      scanMembers self list ≠ .ok false := by
  intro list
  induction list with
  | nil => simp
  | cons m rest ih =>
    rintro ⟨m', hm', hc⟩
    by_cases h1 : self.name = m.1 ∧ self.id = m.2
    · simp [scanMembers, h1]
    · by_cases h2 : self.name = m.1 ∧ self.id ≠ m.2
      · simp [scanMembers, h1, h2]
      · by_cases h3 : self.id = m.2 ∧ self.name ≠ m.1
        · simp [scanMembers, h1, h2, h3]
        · have hstep : scanMembers self (m :: rest) = scanMembers self rest := by
            simp [scanMembers, h1, h2, h3]
          rw [hstep]
          rcases List.mem_cons.mp hm' with rfl | hmem
          · unfold conflictsWith at hc
            rcases hc with h | h
            · exact absurd h h2
            · exact absurd h h3
          · exact ih ⟨m', hmem, hc⟩

theorem scanMembers_conflict_errors (self : SelfId) :
    ∀ list : List (Nat × Nat), (∃ m ∈ list, conflictsWith self m) →
      (∀ m ∈ list, ¬(self.name = m.1 ∧ self.id = m.2)) →
      scanMembers self list = .error .panicConflictIds ∨
        scanMembers self list = .error .panicConflictNames := by
  intro list
  induction list with
  | nil => simp
  | cons m rest ih =>
    rintro ⟨m', hm', hc⟩ hnoex
    have h1 : ¬(self.name = m.1 ∧ self.id = m.2) :=
      hnoex m (List.mem_cons_self m rest)
    by_cases h2 : self.name = m.1 ∧ self.id ≠ m.2
    · left; simp [scanMembers, h1, h2]
    · by_cases h3 : self.id = m.2 ∧ self.name ≠ m.1
      · right; simp [scanMembers, h1, h2, h3]
      · have hstep : scanMembers self (m :: rest) = scanMembers self rest := by
          simp [scanMembers, h1, h2, h3]
        rw [hstep]
        rcases List.mem_cons.mp hm' with rfl | hmem
        · unfold conflictsWith at hc
          rcases hc with h | h
          · exact absurd h h2
          · exact absurd h h3
        · exact ih ⟨m', hmem, hc⟩
            (fun x hx => hnoex x (List.mem_cons_of_mem m hx))

/-- C4 (amended): during the join protocol, whenever some existing
member has the same name as this node but a different id, or the same
id but a different name, no member-add is issued; and when additionally
no existing member exactly matches this node's identity, the protocol
aborts the process via panic rather than returning a typed error. -/
theorem addSelfToCluster_conflict_no_add (self : SelfId)
    (memberList : List (Nat × Nat)) (addOk : Bool)
    (hconf : ∃ m ∈ memberList, conflictsWith self m) :
    JoinEvent.memberAdd
      ∉ (addSelfToCluster self true true addOk memberList).2 ∧
    ((∀ m ∈ memberList, ¬(self.name = m.1 ∧ self.id = m.2)) →
      (addSelfToCluster self true true addOk memberList).1
        = .panicConflictIds ∨
      (addSelfToCluster self true true addOk memberList).1
        = .panicConflictNames) := by
  constructor
  · have hne := scanMembers_conflict_not_notfound self memberList hconf
    cases hscan : scanMembers self memberList with
    | error p => simp [addSelfToCluster, hscan]
    | ok b =>
      cases b
      · exact absurd hscan hne
      · simp [addSelfToCluster, hscan]
  · intro hnoex
    rcases scanMembers_conflict_errors self memberList hconf hnoex with h | h <;>
      simp [addSelfToCluster, h]

/-- Closed instance of the amended identity-conflict property at the
same input as the counterexample. -/
theorem addSelfToCluster_conflict_no_add_witness :
    (∃ m ∈ [((7 : Nat), (2 : Nat))], conflictsWith ⟨7, 1⟩ m) ∧
    (JoinEvent.memberAdd
      ∉ (addSelfToCluster ⟨7, 1⟩ true true true [(7, 2)]).2 ∧
    ((∀ m ∈ [((7 : Nat), (2 : Nat))],
        ¬((⟨7, 1⟩ : SelfId).name = m.1 ∧ (⟨7, 1⟩ : SelfId).id = m.2)) →
      (addSelfToCluster ⟨7, 1⟩ true true true [(7, 2)]).1
        = .panicConflictIds ∨
      (addSelfToCluster ⟨7, 1⟩ true true true [(7, 2)]).1
        = .panicConflictNames)) :=
  ⟨by decide, addSelfToCluster_conflict_no_add ⟨7, 1⟩ [(7, 2)] true (by decide)⟩

/-- An embedded server handle; `stopped` records that closeEtcdServer
has force-stopped it. -/
structure ServerHandle where
  sid : Nat
  stopped : Bool
deriving DecidableEq

/-- Process-level resource state for teardown: whether the done channel
has already been closed, and the three cached resources. -/
structure CloseState where
  doneClosed : Bool
  session : Option Nat
  client : Option Nat
  server : Option ServerHandle
deriving DecidableEq

/-- Outcome of a Close call. -/
inductive CloseOutcome
  | ok
  | panicClosedChannel
deriving DecidableEq

/-- closeSession (cluster.go lines 453-467): return at once when no
session is cached; otherwise close it — an error is only logged — and
nil the cache. Either way the cache ends empty and nothing else moves. -/
def closeSession (s : CloseState) : CloseState := { s with session := none }

/-- closeClient (cluster.go lines 338-352): same discipline for the
client cache. -/
def closeClient (s : CloseState) : CloseState := { s with client := none }

/-- closeServer (cluster.go lines 545-555): return at once when no
server is cached; otherwise run closeEtcdServer on it and nil the
cache. -/
def closeServer (s : CloseState) : CloseState :=
  match s.server with
  | none => s
  | some _ => { s with server := none }

/-- Close (cluster.go lines 706-714): close the done channel — closing
an already-closed channel is a runtime panic — then run closeSession,
closeClient and closeServer, in that order. -/
def Close (s : CloseState) : CloseState × CloseOutcome :=
  if s.doneClosed then (s, .panicClosedChannel)
  else
    (closeServer (closeClient (closeSession { s with doneClosed := true })),
      .ok)

/-- C5 (counterexample): a second Close after a completed first call
crashes: it closes the already-closed done channel, a runtime panic. -/
theorem Close_second_call_panics :
    (Close (Close ⟨false, none, none, none⟩).1).2
      = .panicClosedChannel := by
  decide

/-- C5 (amended): from any not-yet-closed state the first Close
succeeds and empties all three caches — each of the three closes
(Session, Connection, Server, in that order) being a safe no-op when
the resource was never created — but the stop signal is single-use: a
second Close panics on the already-closed done channel rather than
returning, while changing no state. -/
theorem Close_first_ok_second_panics (s : CloseState)
    (h : s.doneClosed = false) :
    (Close s).2 = .ok ∧
    (Close s).1 = ⟨true, none, none, none⟩ ∧
    (s.session = none → closeSession s = s) ∧
    (s.client = none → closeClient s = s) ∧
    (s.server = none → closeServer s = s) ∧
    (Close (Close s).1).2 = .panicClosedChannel ∧
    (Close (Close s).1).1 = (Close s).1 := by
  cases s with
  | mk d sess cl srv =>
    simp only at h
    subst h
    cases srv <;>
      simp [Close, closeSession, closeClient, closeServer] <;>
      exact ⟨fun hh => hh.symm, fun hh => hh.symm⟩

/-- Closed instance of the amended shutdown property, from a state in
which none of the three resources was ever created. -/
theorem Close_first_ok_second_panics_witness :
    ((⟨false, none, none, none⟩ : CloseState).doneClosed = false) ∧
    ((Close ⟨false, none, none, none⟩).2 = .ok ∧
    (Close ⟨false, none, none, none⟩).1 = ⟨true, none, none, none⟩ ∧
    ((⟨false, none, none, none⟩ : CloseState).session = none →
      closeSession ⟨false, none, none, none⟩ = ⟨false, none, none, none⟩) ∧
    ((⟨false, none, none, none⟩ : CloseState).client = none →
      closeClient ⟨false, none, none, none⟩ = ⟨false, none, none, none⟩) ∧
    ((⟨false, none, none, none⟩ : CloseState).server = none →
      closeServer ⟨false, none, none, none⟩ = ⟨false, none, none, none⟩) ∧
    (Close (Close ⟨false, none, none, none⟩).1).2 = .panicClosedChannel ∧
    (Close (Close ⟨false, none, none, none⟩).1).1
      = (Close ⟨false, none, none, none⟩).1) :=
  ⟨rfl, Close_first_ok_second_panics ⟨false, none, none, none⟩ rfl⟩

/-- getServer (cluster.go lines 469-476): the cached server handle, or
`none` standing for the "server is not ready" error. -/
def getServer (s : CloseState) : Option ServerHandle := s.server

/-- closeEtcdServer (cluster.go lines 478-493) as it acts on the server
object: the server is stopped in place. -/
def closeEtcdServer (h : ServerHandle) : ServerHandle :=
  { h with stopped := true }

/-- The monitor spawned by startServer (cluster.go lines 515-524) on
observing an unexpected server error: it runs closeEtcdServer on the
cached server object and returns; it never clears the server cache
field. -/
def monitorOnServerErr (s : CloseState) : CloseState :=
  match s.server with
  | none => s
  | some h => { s with server := some (closeEtcdServer h) }

/-- C10: after the monitor observes a server error and force-stops the
server, the cache field still holds that — now stopped — handle, so
getServer returns the stopped handle instead of the not-ready error,
until closeServer (as also run by Close) clears the cache. -/
theorem getServer_after_monitor_stop (s : CloseState) (h : ServerHandle)
    (hs : s.server = some h) :
    (monitorOnServerErr s).server = some { h with stopped := true } ∧
    getServer (monitorOnServerErr s) = some { h with stopped := true } ∧
    getServer (monitorOnServerErr s) ≠ none ∧
    getServer (closeServer (monitorOnServerErr s)) = none := by
  simp [monitorOnServerErr, getServer, closeServer, closeEtcdServer, hs]

/-- Closed instance of the stopped-handle property for a cached, ready
server with id 3. -/
theorem getServer_after_monitor_stop_witness :
    ((⟨false, none, none, some ⟨3, false⟩⟩ : CloseState).server
      = some ⟨3, false⟩) ∧
    ((monitorOnServerErr ⟨false, none, none, some ⟨3, false⟩⟩).server
      = some ⟨3, true⟩ ∧
    getServer (monitorOnServerErr ⟨false, none, none, some ⟨3, false⟩⟩)
      = some ⟨3, true⟩ ∧
    getServer (monitorOnServerErr ⟨false, none, none, some ⟨3, false⟩⟩)
      ≠ none ∧
    getServer (closeServer
      (monitorOnServerErr ⟨false, none, none, some ⟨3, false⟩⟩)) = none) :=
  ⟨rfl, getServer_after_monitor_stop
    ⟨false, none, none, some ⟨3, false⟩⟩ ⟨3, false⟩ rfl⟩

end Cluster
